import Mathlib

/-!
Verification of the country-indicators data pipeline (src/app.js).

Shallow embedding conventions:
* JS numbers that the parser stores are modelled exactly as rationals; the
  special value NaN and the explicit null marker are separate constructors of
  `CellVal` (parseFloat of a non-numeric string is NaN in JS, modelled as
  `Option.none` from `jsParseFloat`).
* JS objects used as string-keyed dictionaries are modelled as association
  lists with JS assignment semantics: assignment to an existing key replaces
  the entry in place, otherwise the pair is appended (`objSet`/`objGet`).
* `parseFloat` and `Number` are modelled for decimal numerals (sign, digits,
  fraction, exponent); the literals `Infinity` and hex forms do not occur in
  the statistical tables and are out of scope of the model.
* Transcendental float computations (`Math.log`, `Math.tan`) are not exactly
  representable; where a claim depends only on their special-value structure
  or not on their values at all, the composite is abstracted as a function
  parameter, as documented at each definition.
-/

/-- Whitespace trim on a character list, both ends (model of JS trim). -/
def jsTrimChars (cs : List Char) : List Char :=
  ((cs.dropWhile Char.isWhitespace).reverse.dropWhile Char.isWhitespace).reverse

/-- Model of JS String.prototype.trim. -/
def jsTrim (s : String) : String := String.mk (jsTrimChars s.data)

/-- Split a character list at every occurrence of the separator character;
the result always has at least one (possibly empty) field. -/
def splitOnChar (sep : Char) : List Char → List (List Char)
  | [] => [[]]
  | c :: rest =>
    let r := splitOnChar sep rest
    if c = sep then [] :: r
    else
      match r with
      | h :: t => (c :: h) :: t
      | [] => [[c]]

/-- Model of JS String.prototype.split with a one-character separator. -/
def jsSplit (sep : Char) (s : String) : List String :=
  (splitOnChar sep s.data).map String.mk

/-- Character model of the JS digit test used by the numeric parsers. -/
def jsDigit (c : Char) : Bool := decide ('0' ≤ c) && decide (c ≤ '9')

/-- Value of a digit character. -/
def digitVal (c : Char) : Nat := c.toNat - 48

/-- Accumulate a digit string into a natural number, as repeated 10*n + d. -/
def digitsToNat (ds : List Char) : Nat := ds.foldl (fun n c => 10 * n + digitVal c) 0

/-- Split an optional leading sign; returns (isNegative, rest). -/
def signSplit : List Char → Bool × List Char
  | '-' :: r => (true, r)
  | '+' :: r => (false, r)
  | cs => (false, cs)

/-- Mantissa value of integer digits plus fraction digits. -/
def mantissaOf (intDs fracDs : List Char) : ℚ :=
  (digitsToNat intDs : ℚ) + (digitsToNat fracDs : ℚ) / ((10 : ℚ) ^ fracDs.length)

/-- Exponent suffix accepted by parseFloat: an optional e/E part whose digits,
when present, scale the mantissa; an incomplete exponent is ignored (JS
parseFloat keeps the longest valid numeric prefix). -/
def floatExpOf : List Char → ℤ
  | c :: r =>
    if c = 'e' ∨ c = 'E' then
      let (neg, r1) := signSplit r
      let ds := r1.takeWhile jsDigit
      if ds.isEmpty then 0
      else if neg then -(digitsToNat ds : ℤ) else (digitsToNat ds : ℤ)
    else 0
  | [] => 0

/-- Scale a rational by a power of ten. -/
def scalePow10 (m : ℚ) (e : ℤ) : ℚ :=
  if 0 ≤ e then m * (10 : ℚ) ^ e.toNat else m / (10 : ℚ) ^ (-e).toNat

/-- Model of JS parseFloat: skip leading whitespace, parse the longest prefix
of the form sign? digits? (. digits?)? (e sign? digits)?; `none` models the
NaN result when no digits are found. -/
def jsParseFloat (s : String) : Option ℚ :=
  let cs0 := s.data.dropWhile Char.isWhitespace
  let (neg, cs1) := signSplit cs0
  let intDs := cs1.takeWhile jsDigit
  let cs2 := cs1.dropWhile jsDigit
  let (fracDs, cs3) :=
    match cs2 with
    | '.' :: r => (r.takeWhile jsDigit, r.dropWhile jsDigit)
    | _ => ([], cs2)
  if intDs.isEmpty ∧ fracDs.isEmpty then none
  else
    let m := scalePow10 (mantissaOf intDs fracDs) (floatExpOf cs3)
    some (if neg then -m else m)

/-- Model of JS Number() string coercion (used by isNaN on strings): trims,
maps the empty string to 0, and otherwise requires the whole string to be a
decimal numeral; `none` models NaN. -/
def jsToNumber (s : String) : Option ℚ :=
  let t := jsTrim s
  if t = "" then some 0
  else
    let (neg, cs1) := signSplit t.data
    let intDs := cs1.takeWhile jsDigit
    let cs2 := cs1.dropWhile jsDigit
    let (fracDs, cs3) :=
      match cs2 with
      | '.' :: r => (r.takeWhile jsDigit, r.dropWhile jsDigit)
      | _ => ([], cs2)
    if intDs.isEmpty ∧ fracDs.isEmpty then none
    else
      match cs3 with
      | [] => some (if neg then -(mantissaOf intDs fracDs) else mantissaOf intDs fracDs)
      | c :: r =>
        if c = 'e' ∨ c = 'E' then
          let (eneg, r1) := signSplit r
          let ds := r1.takeWhile jsDigit
          let rest := r1.dropWhile jsDigit
          if ds.isEmpty ∨ ¬rest.isEmpty then none
          else
            let e : ℤ := if eneg then -(digitsToNat ds : ℤ) else (digitsToNat ds : ℤ)
            let m := scalePow10 (mantissaOf intDs fracDs) e
            some (if neg then -m else m)
        else none

/-- JS isNaN applied to a string value. -/
def jsIsNaNStr (s : String) : Bool := (jsToNumber s).isNone

/-- Model of replace with a leading-or-trailing-quote pattern applied once
each side, as the tokenizer in app.js does after splitting fields. -/
def stripOuterQuotes (s : String) : String :=
  let l := match s.data with
    | '"' :: r => r
    | cs => cs
  String.mk (if l.getLast? = some '"' then l.dropLast else l)

/-- Character loop of parseCSVLine in app.js: a double quote toggles the
in-quote state and is not emitted; a comma outside quotes ends the current
field, which is pushed trimmed; all other characters accumulate. -/
def parseCSVLineChars : List Char → Bool → List Char → List String
  | [], _, cur => [jsTrim (String.mk cur.reverse)]
  | c :: rest, inQ, cur =>
    if c = '"' then parseCSVLineChars rest (!inQ) cur
    else if c = ',' ∧ inQ = false then
      jsTrim (String.mk cur.reverse) :: parseCSVLineChars rest inQ []
    else parseCSVLineChars rest inQ (c :: cur)

/-- Model of parseCSVLine in app.js (quote-aware tokenizer, fields trimmed
and stripped of one surrounding quote on each side). -/
def parseCSVLine (line : String) : List String :=
  (parseCSVLineChars line.data false []).map (fun p => jsTrim (stripOuterQuotes p))

/-- Stored cell value of a time series: an explicit null marker, the float
NaN, or a finite numeric value. -/
inductive CellVal
  | null
  | nan
  | num (q : ℚ)
deriving DecidableEq

/-- Association-list lookup modelling JS object property read. -/
def objGet {α : Type} (m : List (String × α)) (k : String) : Option α :=
  (m.find? (fun p => p.1 == k)).map Prod.snd

/-- Association-list write modelling JS object property assignment: replace
in place when the key exists, otherwise append. -/
def objSet {α : Type} (m : List (String × α)) (k : String) (v : α) : List (String × α) :=
  if m.any (fun p => p.1 == k) then
    m.map (fun p => if p.1 = k then (k, v) else p)
  else m ++ [(k, v)]

/-- Parse of one data cell in parseCSV: NaN becomes the explicit null marker,
any parsed number is stored exactly. -/
def cellParse (s : String) : CellVal :=
  match jsParseFloat s with
  | none => CellVal.null
  | some q => CellVal.num q

/-- Parse of one subnational cell in mergeStateData: the parseFloat result is
stored without a NaN guard, so a non-numeric cell stores NaN. -/
def mergeCell (s : String) : CellVal :=
  match jsParseFloat s with
  | none => CellVal.nan
  | some q => CellVal.num q

/-- One parsed time series: display name plus year-keyed values. -/
structure Series where
  name : String
  values : List (String × CellVal)
deriving DecidableEq

/-- Generic fold step writing an optional keyed record into a store; the
shape shared by the row loops of parseCSV and mergeStateData. -/
def stepOf {ι α : Type} (f : ι → Option (String × α)) (acc : List (String × α)) (x : ι) :
    List (String × α) :=
  match f x with
  | none => acc
  | some kv => objSet acc kv.1 kv.2

/-- Record written for column index j of a data row in parseCSV: skipped when
the header is missing, empty, or not numeric; otherwise the trimmed header
year maps to the parsed cell. -/
def colRec (headers parts : List String) (j : Nat) : Option (String × CellVal) :=
  match headers.get? j with
  | none => none
  | some year =>
    if year = "" then none
    else if jsIsNaNStr (jsTrim year) then none
    else some (jsTrim year, cellParse (parts.getD j ""))

/-- Values object of one data row in parseCSV: the column loop from the
start-year index to the end of the row. -/
def rowValues (headers : List String) (startIdx : Nat) (parts : List String) :
    List (String × CellVal) :=
  (List.range' startIdx (parts.length - startIdx)).foldl (stepOf (colRec headers parts)) []

/-- Record written for one line of the country table in parseCSV: blank lines
and rows with fewer than five fields are skipped; otherwise the region code
keys a series holding the display name and the parsed year values. -/
def rowRecord (headers : List String) (startIdx : Nat) (line : String) :
    Option (String × Series) :=
  if jsTrim line = "" then none
  else
    let parts := parseCSVLine line
    if parts.length < 5 then none
    else some (parts.getD 1 "", ⟨parts.getD 0 "", rowValues headers startIdx parts⟩)

/-- parseCSV of app.js on the list of lines: header on line index 4, start
column located by literal 1960, rows from line index 5; missing header line,
empty header line, or missing 1960 column yield the empty store. -/
def parseCSVlines (lines : List String) : List (String × Series) :=
  match lines.get? 4 with
  | none => []
  | some headerLine =>
    if headerLine = "" then []
    else
      let headers := parseCSVLine headerLine
      match headers.findIdx? (fun h => jsTrim h == "1960") with
      | none => []
      | some startIdx => (lines.drop 5).foldl (stepOf (rowRecord headers startIdx)) []

/-- parseCSV of app.js: trim the raw text, split on newlines, parse. -/
def parseCSV (csvText : String) : List (String × Series) :=
  parseCSVlines (jsSplit '\n' (jsTrim csvText))

/-- Subnational code synthesis at line 885 of app.js: collapse each maximal
whitespace run to one underscore. -/
def replaceWsAux : Bool → List Char → List Char
  | _, [] => []
  | inRun, c :: rest =>
    if c.isWhitespace then
      if inRun then replaceWsAux true rest else '_' :: replaceWsAux true rest
    else c :: replaceWsAux false rest

/-- JS replace of all whitespace runs by a single underscore. -/
def jsReplaceWs (s : String) : String := String.mk (replaceWsAux false s.data)

/-- JS toUpperCase, character by character. -/
def jsToUpper (s : String) : String := String.mk (s.data.map Char.toUpper)

/-- JS toLowerCase, character by character. -/
def jsToLower (s : String) : String := String.mk (s.data.map Char.toLower)

/-- Synthesized subnational region code from a region name (app.js line 885):
namespace the name away from country codes with the USA_ST_ marker. -/
def codeOf (name : String) : String := "USA_ST_" ++ jsToUpper (jsReplaceWs name)

/-- Record written for one line of a subnational table in mergeStateData:
rows that are blank or have fewer than two fields are skipped; the values
object stores parseFloat of every nonempty cell aligned to the year header. -/
def mergeRowRec (years : List String) (line : String) : Option (String × Series) :=
  if jsTrim line = "" then none
  else
    let parts := parseCSVLine line
    if parts.length < 2 then none
    else
      let name := parts.getD 0 ""
      let values :=
        (List.range years.length).foldl
          (fun vals y =>
            let valIdx := y + 1
            if valIdx < parts.length then
              let v := parts.getD valIdx ""
              if v ≠ "" then objSet vals (years.getD y "") (mergeCell v) else vals
            else vals)
          []
      some (codeOf name, ⟨name, values⟩)

/-- mergeStateData of app.js: split the trimmed text, read the year header
from the first line with a plain comma split, then write one synthesized
entry per data row into the target store (assignment overwrites). -/
def mergeStateData (csvText : String) (target : List (String × Series)) :
    List (String × Series) :=
  let lines := jsSplit '\n' (jsTrim csvText)
  let years := ((jsSplit ',' (lines.headD "")).map jsTrim).drop 1
  (lines.drop 1).foldl (stepOf (mergeRowRec years)) target

/-- Flattened lookup of one cell: entry by region code, then value by year
key; absent entry or absent year both model the JS undefined/null read. -/
def lookupCell (store : List (String × Series)) (code year : String) : Option CellVal :=
  match objGet store code with
  | none => none
  | some s => objGet s.values year

/-- Accumulator update characterizing one step of a last-write-wins fold for
a fixed key. -/
def lwStep {ι α : Type} (f : ι → Option (String × α)) (k : String)
    (o : Option α) (x : ι) : Option α :=
  match f x with
  | some kv => if kv.1 = k then some kv.2 else o
  | none => o

/-- Last value written for key k by the records of xs, if any. -/
def lastWrite {ι α : Type} (f : ι → Option (String × α)) (k : String) (xs : List ι) :
    Option α :=
  xs.foldl (lwStep f k) none

theorem foldl_lwStep {ι α : Type} (f : ι → Option (String × α)) (k : String)
    (xs : List ι) : ∀ o : Option α,
    xs.foldl (lwStep f k) o =
      match lastWrite f k xs with
      | some v => some v
      | none => o := by
  induction xs with
  | nil => intro o; simp [lastWrite]
  | cons x xs ih =>
    intro o
    have hx : (x :: xs).foldl (lwStep f k) o = xs.foldl (lwStep f k) (lwStep f k o x) := rfl
    have hlw : lastWrite f k (x :: xs) = xs.foldl (lwStep f k) (lwStep f k none x) := rfl
    rw [hx, ih (lwStep f k o x), hlw, ih (lwStep f k none x)]
    cases hcase : lastWrite f k xs with
    | some v => simp
    | none =>
      simp only
      cases hfx : f x with
      | none => simp [lwStep, hfx]
      | some kv =>
        by_cases hk : kv.1 = k
        · simp [lwStep, hfx, hk]
        · simp [lwStep, hfx, hk]

theorem lastWrite_cons {ι α : Type} (f : ι → Option (String × α)) (k : String)
    (x : ι) (xs : List ι) :
    lastWrite f k (x :: xs) =
      match lastWrite f k xs with
      | some v => some v
      | none => lwStep f k none x := by
  have : lastWrite f k (x :: xs) = xs.foldl (lwStep f k) (lwStep f k none x) := rfl
  rw [this, foldl_lwStep]

theorem lastWrite_append {ι α : Type} (f : ι → Option (String × α)) (k : String)
    (xs ys : List ι) :
    lastWrite f k (xs ++ ys) =
      match lastWrite f k ys with
      | some v => some v
      | none => lastWrite f k xs := by
  have : lastWrite f k (xs ++ ys) = ys.foldl (lwStep f k) (lastWrite f k xs) := by
    simp [lastWrite, List.foldl_append]
  rw [this, foldl_lwStep]

theorem lastWrite_eq_none {ι α : Type} (f : ι → Option (String × α)) (k : String)
    (xs : List ι) (h : ∀ x ∈ xs, ∀ kv, f x = some kv → kv.1 ≠ k) :
    lastWrite f k xs = none := by
  induction xs with
  | nil => rfl
  | cons x xs ih =>
    rw [lastWrite_cons, ih (fun y hy => h y (List.mem_cons_of_mem x hy))]
    cases hfx : f x with
    | none => simp [lwStep, hfx]
    | some kv => simp [lwStep, hfx, h x (List.mem_cons_self x xs) kv hfx]

theorem lastWrite_last {ι α : Type} (f : ι → Option (String × α)) (k : String)
    (pre post : List ι) (x : ι) (v : α) (hx : f x = some (k, v))
    (hpost : ∀ y ∈ post, ∀ kv, f y = some kv → kv.1 ≠ k) :
    lastWrite f k (pre ++ x :: post) = some v := by
  rw [lastWrite_append, lastWrite_cons, lastWrite_eq_none f k post hpost]
  simp [lwStep, hx]

theorem find_map_subst_self {α : Type} (k : String) (v : α) :
    ∀ m : List (String × α), m.any (fun p => p.1 == k) = true →
      (m.map (fun p => if p.1 = k then (k, v) else p)).find? (fun p => p.1 == k) =
        some (k, v) := by
  intro m
  induction m with
  | nil => intro h; simp at h
  | cons p m ih =>
    intro h
    rw [List.map_cons]
    by_cases hp : p.1 = k
    · rw [if_pos hp]
      exact List.find?_cons_of_pos _ (by simp)
    · rw [if_neg hp]
      have hpk : (p.1 == k) = false := beq_eq_false_iff_ne.mpr hp
      rw [List.find?_cons_of_neg _ (by simp [hpk])]
      have h2 : m.any (fun p => p.1 == k) = true := by
        simp only [List.any_cons, Bool.or_eq_true, beq_iff_eq] at h
        rcases h with h | h
        · exact absurd h hp
        · simpa using h
      exact ih h2

theorem find_map_subst_ne {α : Type} (k q : String) (v : α) (hkq : k ≠ q) :
    ∀ m : List (String × α),
      (m.map (fun p => if p.1 = k then (k, v) else p)).find? (fun p => p.1 == q) =
        m.find? (fun p => p.1 == q) := by
  intro m
  induction m with
  | nil => rfl
  | cons p m ih =>
    rw [List.map_cons]
    by_cases hp : p.1 = k
    · rw [if_pos hp]
      have h1 : ((k, v).1 == q) = false := beq_eq_false_iff_ne.mpr hkq
      have h2 : (p.1 == q) = false := beq_eq_false_iff_ne.mpr (by rw [hp]; exact hkq)
      rw [List.find?_cons_of_neg _ (by simp [h1]), List.find?_cons_of_neg _ (by simp [h2])]
      exact ih
    · rw [if_neg hp]
      by_cases hq : p.1 = q
      · rw [List.find?_cons_of_pos _ (by simp [hq]), List.find?_cons_of_pos _ (by simp [hq])]
      · have h2 : (p.1 == q) = false := beq_eq_false_iff_ne.mpr hq
        rw [List.find?_cons_of_neg _ (by simp [h2]), List.find?_cons_of_neg _ (by simp [h2])]
        exact ih

theorem find_none_of_any_false {α : Type} (q : String) (m : List (String × α))
    (h : m.any (fun p => p.1 == q) = false) :
    m.find? (fun p => p.1 == q) = none := by
  rw [List.find?_eq_none]
  intro x hx
  intro hbeq
  rw [List.any_eq_false] at h
  exact absurd hbeq (h x hx)

/-- JS object assignment then read: reading the assigned key returns the new
value, reading any other key is unchanged. -/
theorem objGet_objSet {α : Type} (m : List (String × α)) (k q : String) (v : α) :
    objGet (objSet m k v) q = if k = q then some v else objGet m q := by
  unfold objSet objGet
  by_cases hany : m.any (fun p => p.1 == k) = true
  · rw [if_pos hany]
    by_cases hkq : k = q
    · subst hkq
      rw [find_map_subst_self k v m hany]
      simp
    · rw [find_map_subst_ne k q v hkq m, if_neg hkq]
  · have hfalse : m.any (fun p => p.1 == k) = false := by
      cases h : m.any (fun p => p.1 == k) with
      | true => exact absurd h hany
      | false => rfl
    rw [if_neg hany, List.find?_append]
    by_cases hkq : k = q
    · subst hkq
      rw [find_none_of_any_false k m hfalse]
      simp
    · have hkq2 : ((k, v).1 == q) = false := beq_eq_false_iff_ne.mpr hkq
      rw [if_neg hkq]
      cases hfind : m.find? (fun p => p.1 == q) with
      | some p => simp [hfind]
      | none => simp [hfind, List.find?, hkq2]

/-- The row loops of parseCSV and mergeStateData are last-write-wins: the
final store maps k to the last record written for k, or falls back to the
initial store. -/
theorem objGet_foldl_stepOf {ι α : Type} (f : ι → Option (String × α)) (k : String) :
    ∀ (xs : List ι) (acc : List (String × α)),
      objGet (xs.foldl (stepOf f) acc) k =
        match lastWrite f k xs with
        | some v => some v
        | none => objGet acc k := by
  intro xs
  induction xs with
  | nil => intro acc; simp [lastWrite]
  | cons x xs ih =>
    intro acc
    have hfold : (x :: xs).foldl (stepOf f) acc = xs.foldl (stepOf f) (stepOf f acc x) := rfl
    rw [hfold, ih (stepOf f acc x), lastWrite_cons]
    cases hcase : lastWrite f k xs with
    | some v => simp
    | none =>
      simp only
      cases hfx : f x with
      | none => simp [stepOf, lwStep, hfx]
      | some kv =>
        by_cases hk : kv.1 = k
        · simp [stepOf, lwStep, hfx, hk, objGet_objSet]
        · simp [stepOf, lwStep, hfx, hk, objGet_objSet]

/-- C9: merging the same subnational source table into a raw-data store twice
yields exactly the same store contents as merging it once: for every region
code the looked-up entry (name and per-year values, and in particular key
presence) is unchanged by the second merge, so re-application neither
accumulates duplicates nor changes any stored value. -/
theorem mergeStateData_idem (csv : String) (target : List (String × Series))
    (code : String) :
    objGet (mergeStateData csv (mergeStateData csv target)) code =
      objGet (mergeStateData csv target) code := by
  unfold mergeStateData
  rw [objGet_foldl_stepOf, objGet_foldl_stepOf]
  cases hlw : lastWrite
      (mergeRowRec (((jsSplit ',' ((jsSplit '\n' (jsTrim csv)).headD "")).map jsTrim).drop 1))
      code ((jsSplit '\n' (jsTrim csv)).drop 1) with
  | some v => simp
  | none => simp

/-- C10: subnational code synthesis is a pure deterministic function of the
region name, and the synthesized code (prefixed with the seven-character
USA_ST_ marker) is never equal to any three-letter country code. -/
theorem codeOf_deterministic_disjoint :
    (∀ n1 n2 : String, n1 = n2 → codeOf n1 = codeOf n2) ∧
    (∀ nm c : String, c.length = 3 → codeOf nm ≠ c) := by
  constructor
  · intro n1 n2 h
    rw [h]
  · intro nm c hc hEq
    have hlen : (codeOf nm).length = c.length := by rw [hEq]
    rw [hc] at hlen
    unfold codeOf at hlen
    rw [String.length_append] at hlen
    have h7 : ("USA_ST_" : String).length = 7 := rfl
    rw [h7] at hlen
    omega

/-- Witness for C10 at a concrete name and a concrete three-letter code. -/
theorem codeOf_deterministic_disjoint_witness :
    codeOf "New York" = codeOf "New York" ∧ codeOf "New York" ≠ "USA" :=
  ⟨codeOf_deterministic_disjoint.1 "New York" "New York" rfl,
    codeOf_deterministic_disjoint.2 "New York" "USA" rfl⟩

/-- C2: the merge path violates the never-NaN invariant: merging a
subnational table whose 2000 cell is the non-numeric, non-empty string abc
stores the NaN marker (parseFloat of a non-numeric string) in the resulting
series, instead of omitting the key or storing an explicit absence. -/
theorem mergeStateData_stores_nan :
    lookupCell (mergeStateData "Region,2000\nTexas,abc" []) "USA_ST_TEXAS" "2000" =
      some CellVal.nan := by decide

/-- C1: round-trip of the country-format parser. For a table whose header
line (line index 4) contains the literal 1960 column, and a data row whose
region code is not reused by any later data row, looking the parsed store up
at that code and at the trimmed year header of any valid year column (the
year headers being pairwise distinct) returns exactly the parse of that cell:
the parsed float when the cell is numeric, the explicit null marker when it
is blank or non-numeric, and never a coerced zero. -/
theorem parseCSV_roundtrip
    (csv : String) (lines : List String) (hl : String) (headers : List String)
    (startIdx : Nat) (pre post : List String) (row : String) (parts : List String)
    (code : String) (j : Nat) (year : String)
    (hsplit : jsSplit '\n' (jsTrim csv) = lines)
    (hget4 : lines.get? 4 = some hl)
    (hhl : ¬hl = "")
    (hheaders : parseCSVLine hl = headers)
    (hfind : headers.findIdx? (fun h => jsTrim h == "1960") = some startIdx)
    (hdrop : lines.drop 5 = pre ++ row :: post)
    (hrow : ¬jsTrim row = "")
    (hparts : parseCSVLine row = parts)
    (hlen : 5 ≤ parts.length)
    (hcode : parts.getD 1 "" = code)
    (hpost : ∀ r ∈ post, ∀ kv, rowRecord headers startIdx r = some kv → kv.1 ≠ code)
    (hj1 : startIdx ≤ j) (hj2 : j < parts.length)
    (hyear : headers.get? j = some year)
    (hyne : ¬year = "")
    (hynum : jsIsNaNStr (jsTrim year) = false)
    (huniq : ∀ i < parts.length, startIdx ≤ i → i ≠ j →
      ∀ y, headers.get? i = some y → ¬y = "" → jsIsNaNStr (jsTrim y) = false →
        jsTrim y ≠ jsTrim year) :
    (objGet (parseCSV csv) code).map Series.name = some (parts.getD 0 "") ∧
    lookupCell (parseCSV csv) code (jsTrim year) = some (cellParse (parts.getD j "")) ∧
    (jsParseFloat (parts.getD j "") = none →
      lookupCell (parseCSV csv) code (jsTrim year) = some CellVal.null) := by
  have hlt5 : ¬parts.length < 5 := by omega
  have hstore : parseCSV csv =
      (pre ++ row :: post).foldl (stepOf (rowRecord headers startIdx)) [] := by
    simp only [parseCSV, hsplit, parseCSVlines, hget4, if_neg hhl, hheaders, hfind, hdrop]
  have hrowrec : rowRecord headers startIdx row =
      some (code, ⟨parts.getD 0 "", rowValues headers startIdx parts⟩) := by
    simp only [rowRecord, hparts, if_neg hrow, if_neg hlt5, hcode]
  have hlw := lastWrite_last (rowRecord headers startIdx) code pre post row
      ⟨parts.getD 0 "", rowValues headers startIdx parts⟩ hrowrec hpost
  have hobjget : objGet (parseCSV csv) code =
      some ⟨parts.getD 0 "", rowValues headers startIdx parts⟩ := by
    rw [hstore, objGet_foldl_stepOf, hlw]
  have hjmem : j ∈ List.range' startIdx (parts.length - startIdx) := by
    rw [List.mem_range'_1]
    omega
  obtain ⟨as, bs, hdecomp⟩ := List.mem_iff_append.mp hjmem
  have hnodup := List.nodup_range' startIdx (parts.length - startIdx)
  rw [hdecomp] at hnodup
  have hjnotbs : j ∉ bs := by
    have h2 := hnodup.of_append_right
    rw [List.nodup_cons] at h2
    exact h2.1
  have hcolrec : colRec headers parts j = some (jsTrim year, cellParse (parts.getD j "")) := by
    simp only [colRec, hyear, if_neg hyne, hynum, Bool.false_eq_true, if_false]
  have hbs : ∀ y ∈ bs, ∀ kv, colRec headers parts y = some kv → kv.1 ≠ jsTrim year := by
    intro y hy kv hkv
    have hymem : y ∈ List.range' startIdx (parts.length - startIdx) := by
      rw [hdecomp]
      exact List.mem_append_right _ (List.mem_cons_of_mem _ hy)
    have hbounds := List.mem_range'_1.mp hymem
    have hyj : y ≠ j := fun h => hjnotbs (h ▸ hy)
    cases hget : headers.get? y with
    | none =>
      simp only [colRec, hget] at hkv
      exact absurd hkv (by simp)
    | some y' =>
      simp only [colRec, hget] at hkv
      by_cases h1 : y' = ""
      · rw [if_pos h1] at hkv
        exact absurd hkv (by simp)
      · rw [if_neg h1] at hkv
        by_cases h2 : jsIsNaNStr (jsTrim y') = true
        · rw [if_pos h2] at hkv
          exact absurd hkv (by simp)
        · have h2f : jsIsNaNStr (jsTrim y') = false := by
            cases h : jsIsNaNStr (jsTrim y') with
            | true => exact absurd h h2
            | false => rfl
          rw [if_neg h2] at hkv
          have hkv2 : kv = (jsTrim y', cellParse (parts.getD y "")) :=
            (Option.some.inj hkv).symm
          have hne := huniq y (by omega) (by omega) hyj y' hget h1 h2f
          rw [hkv2]
          exact hne
  have hlw2 := lastWrite_last (colRec headers parts) (jsTrim year) as bs j
      (cellParse (parts.getD j "")) hcolrec hbs
  have hvals : objGet (rowValues headers startIdx parts) (jsTrim year) =
      some (cellParse (parts.getD j "")) := by
    unfold rowValues
    rw [hdecomp, objGet_foldl_stepOf, hlw2]
  refine ⟨?_, ?_, ?_⟩
  · rw [hobjget]
    rfl
  · simp only [lookupCell, hobjget]
    exact hvals
  · intro hnone
    simp only [lookupCell, hobjget]
    rw [hvals]
    unfold cellParse
    rw [hnone]

/-- Witness for C1 on a concrete six-line country table with a numeric 1960
cell for region code TST. -/
theorem parseCSV_roundtrip_witness :
    (objGet (parseCSV "a\nb\nc\nd\nCountry Name,Country Code,Ind,IndCode,1960,1961\nTestland,TST,g,gc,5.5,x")
        "TST").map Series.name = some "Testland" ∧
    lookupCell (parseCSV "a\nb\nc\nd\nCountry Name,Country Code,Ind,IndCode,1960,1961\nTestland,TST,g,gc,5.5,x")
        "TST" "1960" = some (cellParse "5.5") := by
  have h := parseCSV_roundtrip
    "a\nb\nc\nd\nCountry Name,Country Code,Ind,IndCode,1960,1961\nTestland,TST,g,gc,5.5,x"
    ["a", "b", "c", "d", "Country Name,Country Code,Ind,IndCode,1960,1961",
      "Testland,TST,g,gc,5.5,x"]
    "Country Name,Country Code,Ind,IndCode,1960,1961"
    ["Country Name", "Country Code", "Ind", "IndCode", "1960", "1961"]
    4 [] [] "Testland,TST,g,gc,5.5,x"
    ["Testland", "TST", "g", "gc", "5.5", "x"]
    "TST" 4 "1960"
    (by decide) (by decide) (by decide) (by decide) (by decide) (by decide)
    (by decide) (by decide) (by decide) (by decide)
    (by intro r hr; exact absurd hr (List.not_mem_nil r))
    (by decide) (by decide) (by decide) (by decide) (by decide)
    (by
      intro i hi1 hi2 hi3 y hy hy1 hy2
      have hi6 : i < 6 := by simpa using hi1
      have hi5 : i = 5 := by omega
      subst hi5
      have : y = "1961" := by
        have h5 : (["Country Name", "Country Code", "Ind", "IndCode", "1960",
            "1961"] : List String).get? 5 = some "1961" := by decide
        rw [h5] at hy
        exact (Option.some.inj hy).symm
      rw [this]
      decide)
  exact ⟨h.1, h.2.1⟩

/-- JS truthiness of a looked-up series cell: undefined, null, NaN and the
number 0 are all falsy; any other number is truthy. -/
def jsCellTruthy : Option CellVal → Bool
  | some (CellVal.num q) => decide (q ≠ 0)
  | _ => false

/-- Numeric value of a cell, read only under a truthiness guard. -/
def cellQ : Option CellVal → ℚ
  | some (CellVal.num q) => q
  | _ => 0

/-- Growth computation shared by updateInsights (app.js line 1901) and
updateDataTable (lines 1792 and 1795): both endpoint lookups are guarded by
JS truthiness before computing (endVal - startVal) / startVal * 100. -/
def growthCalc (endV startV : Option CellVal) : Option ℚ :=
  if jsCellTruthy endV ∧ jsCellTruthy startV then
    some ((cellQ endV - cellQ startV) / cellQ startV * 100)
  else none

/-- C5 counterexample: with the end value present and equal to 0 and the
start value 1000, the code returns the not-computable marker (null) instead
of the -100 percent the claim requires. -/
theorem growthCalc_end_zero_not_minus100 :
    growthCalc (some (CellVal.num 0)) (some (CellVal.num 1000)) = none ∧
    growthCalc (some (CellVal.num 0)) (some (CellVal.num 1000)) ≠ some (-100) := by
  have h : growthCalc (some (CellVal.num 0)) (some (CellVal.num 1000)) = none := by
    simp [growthCalc, jsCellTruthy]
  exact ⟨h, by rw [h]; exact fun hc => Option.noConfusion hc⟩

/-- C5 (amended): growth over an interval is (end - start) / start * 100
whenever both endpoint values are present and truthy (numeric and nonzero),
and is the not-computable marker (null) whenever either endpoint is absent,
null, NaN or zero — in particular a present end value of 0 yields null, not
-100 percent. A positive result means an increase. -/
theorem growthCalc_spec :
    (∀ e s : ℚ, e ≠ 0 → s ≠ 0 →
      growthCalc (some (CellVal.num e)) (some (CellVal.num s)) =
        some ((e - s) / s * 100)) ∧
    (∀ endV startV : Option CellVal,
      jsCellTruthy endV = false ∨ jsCellTruthy startV = false →
      growthCalc endV startV = none) := by
  constructor
  · intro e s he hs
    simp [growthCalc, jsCellTruthy, cellQ, he, hs]
  · intro endV startV h
    rcases h with h | h <;> simp [growthCalc, h]

/-- Witness for C5 at the spec metric example (start 1000, end 1610.51,
growth 61.051 percent) and at a falsy endpoint. -/
theorem growthCalc_spec_witness :
    growthCalc (some (CellVal.num (161051 / 100))) (some (CellVal.num 1000)) =
      some ((161051 / 100 - 1000) / 1000 * 100) ∧
    growthCalc none (some (CellVal.num 1000)) = none := by
  constructor
  · exact growthCalc_spec.1 (161051 / 100) 1000 (by norm_num) (by norm_num)
  · exact growthCalc_spec.2 none (some (CellVal.num 1000)) (Or.inl rfl)

/-- The four parsed country stores held in state.rawData of app.js. -/
structure RawData where
  gdpCurrent : List (String × Series)
  gdpConstant : List (String × Series)
  pppCurrent : List (String × Series)
  pppConstant : List (String × Series)

/-- The price basis selected in the UI (state.priceType). -/
inductive PriceType
  | current
  | constant
deriving DecidableEq

/-- updateActiveData (app.js lines 738-746): the store state.gdpData points
to, for each price basis. -/
def activeGdp (rd : RawData) : PriceType → List (String × Series)
  | PriceType.current => rd.gdpCurrent
  | PriceType.constant => rd.gdpConstant

/-- updateActiveData (app.js lines 738-746): the store state.pppData points
to, for each price basis. -/
def activePpp (rd : RawData) : PriceType → List (String × Series)
  | PriceType.current => rd.pppCurrent
  | PriceType.constant => rd.pppConstant

/-- Truthiness-guarded ratio of two looked-up cells, the shared shape
(gVal && pVal) ? gVal / pVal : null of all three ratio sites. -/
def ratioOf (g p : Option CellVal) : Option ℚ :=
  if jsCellTruthy g ∧ jsCellTruthy p then some (cellQ g / cellQ p) else none

/-- Ratio data point of createRatioDatasets (app.js lines 1450-1474): reads
the current-price stores unconditionally; the outer none is the skipped
country when either current-price entry is missing. -/
def ratioChartPoint (rd : RawData) (code year : String) : Option (Option ℚ) :=
  match objGet rd.gdpCurrent code, objGet rd.pppCurrent code with
  | some gdp, some ppp =>
    some (ratioOf (objGet gdp.values year) (objGet ppp.values year))
  | _, _ => none

/-- PLI column of updateDataTable (app.js lines 1799-1804): reads the
current-price stores unconditionally. -/
def dataTableRatio (rd : RawData) (code year : String) : Option ℚ :=
  ratioOf (lookupCell rd.gdpCurrent code year) (lookupCell rd.pppCurrent code year)

/-- Tooltip ratio of renderMap (app.js lines 1605-1615): reads the ACTIVE
stores state.gdpData and state.pppData, which follow the price basis. -/
def mapTooltipRatio (rd : RawData) (pt : PriceType) (code year : String) : Option ℚ :=
  ratioOf (lookupCell (activeGdp rd pt) code year)
    (lookupCell (activePpp rd pt) code year)

/-- The ratio the spec prescribes at every site, stated from the spec words:
current-price GDP divided by current-price PPP, whatever basis is displayed. -/
def specRatioCurrent (rd : RawData) (code year : String) : Option ℚ :=
  ratioOf (lookupCell rd.gdpCurrent code year) (lookupCell rd.pppCurrent code year)

/-- C6 counterexample: with the constant-price stores holding different
values than the current-price stores, the map tooltip under the constant
basis computes 100/25 = 4 while the prescribed current-price ratio is
100/50 = 2: the tooltip site does not use current prices regardless of
basis. -/
theorem mapTooltipRatio_constant_differs :
    mapTooltipRatio
      ⟨[("USA", ⟨"United States", [("2020", CellVal.num 100)]⟩)],
        [("USA", ⟨"United States", [("2020", CellVal.num 100)]⟩)],
        [("USA", ⟨"United States", [("2020", CellVal.num 50)]⟩)],
        [("USA", ⟨"United States", [("2020", CellVal.num 25)]⟩)]⟩
      PriceType.constant "USA" "2020" = some 4 ∧
    specRatioCurrent
      ⟨[("USA", ⟨"United States", [("2020", CellVal.num 100)]⟩)],
        [("USA", ⟨"United States", [("2020", CellVal.num 100)]⟩)],
        [("USA", ⟨"United States", [("2020", CellVal.num 50)]⟩)],
        [("USA", ⟨"United States", [("2020", CellVal.num 25)]⟩)]⟩
      "USA" "2020" = some 2 ∧
    (4 : ℚ) ≠ 2 := by
  have h1 : lookupCell [("USA", (⟨"United States", [("2020", CellVal.num 100)]⟩ : Series))]
      "USA" "2020" = some (CellVal.num 100) := rfl
  have h2 : lookupCell [("USA", (⟨"United States", [("2020", CellVal.num 25)]⟩ : Series))]
      "USA" "2020" = some (CellVal.num 25) := rfl
  have h3 : lookupCell [("USA", (⟨"United States", [("2020", CellVal.num 50)]⟩ : Series))]
      "USA" "2020" = some (CellVal.num 50) := rfl
  refine ⟨?_, ?_, by norm_num⟩
  · show ratioOf (some (CellVal.num 100)) (some (CellVal.num 25)) = some 4
    simp only [ratioOf, jsCellTruthy, cellQ]
    norm_num
  · show ratioOf (some (CellVal.num 100)) (some (CellVal.num 50)) = some 2
    simp only [ratioOf, jsCellTruthy, cellQ]
    norm_num

/-- C6 (amended): the ratio chart datasets and the data table PLI always use
the current-price stores for every region and year, matching the spec rule;
the map tooltip instead uses the active-basis stores, so it matches the
prescribed current-price ratio exactly when the displayed basis is current. -/
theorem ratio_sites_current_price (rd : RawData) (code year : String) :
    dataTableRatio rd code year = specRatioCurrent rd code year ∧
    (∀ gdp ppp, objGet rd.gdpCurrent code = some gdp →
      objGet rd.pppCurrent code = some ppp →
      ratioChartPoint rd code year = some (specRatioCurrent rd code year)) ∧
    mapTooltipRatio rd PriceType.current code year = specRatioCurrent rd code year := by
  refine ⟨rfl, ?_, rfl⟩
  intro gdp ppp hg hp
  simp only [ratioChartPoint, hg, hp, specRatioCurrent, lookupCell]

/-- Witness for C6 at a concrete store where both current-price entries are
present. -/
theorem ratio_sites_current_price_witness :
    ratioChartPoint
      ⟨[("USA", ⟨"United States", [("2020", CellVal.num 100)]⟩)], [],
        [("USA", ⟨"United States", [("2020", CellVal.num 50)]⟩)], []⟩
      "USA" "2020" =
      some (specRatioCurrent
        ⟨[("USA", ⟨"United States", [("2020", CellVal.num 100)]⟩)], [],
          [("USA", ⟨"United States", [("2020", CellVal.num 50)]⟩)], []⟩
        "USA" "2020") :=
  (ratio_sites_current_price _ "USA" "2020").2.1
    ⟨"United States", [("2020", CellVal.num 100)]⟩
    ⟨"United States", [("2020", CellVal.num 50)]⟩ rfl rfl

/-- IEEE-style JS number for the choropleth computation: NaN, the signed
infinities, or a finite value (modelled exactly as a rational). -/
inductive JNum
  | nan
  | ninf
  | pinf
  | fin (q : ℚ)
deriving DecidableEq

/-- JS division on the number model (IEEE special-value rules). -/
def jdiv : JNum → JNum → JNum
  | JNum.nan, _ => JNum.nan
  | _, JNum.nan => JNum.nan
  | JNum.fin a, JNum.fin b =>
    if b = 0 then (if a = 0 then JNum.nan else if 0 < a then JNum.pinf else JNum.ninf)
    else JNum.fin (a / b)
  | JNum.ninf, JNum.fin b => if 0 ≤ b then JNum.ninf else JNum.pinf
  | JNum.pinf, JNum.fin b => if 0 ≤ b then JNum.pinf else JNum.ninf
  | JNum.fin _, JNum.ninf => JNum.fin 0
  | JNum.fin _, JNum.pinf => JNum.fin 0
  | _, _ => JNum.nan

/-- JS multiplication by a finite constant (the palette length). -/
def jmulFin : JNum → ℚ → JNum
  | JNum.nan, _ => JNum.nan
  | JNum.fin a, c => JNum.fin (a * c)
  | JNum.ninf, c => if c = 0 then JNum.nan else if 0 < c then JNum.ninf else JNum.pinf
  | JNum.pinf, c => if c = 0 then JNum.nan else if 0 < c then JNum.pinf else JNum.ninf

/-- Math.floor on the number model. -/
def jfloor : JNum → JNum
  | JNum.fin q => JNum.fin ((Int.floor q : ℤ) : ℚ)
  | x => x

/-- Math.min of a JS number and a finite bound: NaN propagates, -Infinity
wins, +Infinity loses. -/
def jminFin : JNum → ℚ → JNum
  | JNum.nan, _ => JNum.nan
  | JNum.ninf, _ => JNum.ninf
  | JNum.pinf, c => JNum.fin c
  | JNum.fin a, c => JNum.fin (min a c)

/-- JS array indexing: an in-range nonnegative integer index returns the
entry; a negative, fractional, infinite or NaN index is undefined (none). -/
def jsArrayGet (l : List String) : JNum → Option String
  | JNum.fin q => if q.den = 1 ∧ 0 ≤ q.num then l.get? q.num.toNat else none
  | _ => none

/-- The sequential blue palette of renderMap (app.js line 1592), light to
dark. -/
def seqPalette : List String := ["#dbeafe", "#93c5fd", "#3b82f6", "#1d4ed8", "#1e3a8a"]

/-- colorScale of renderMap (app.js lines 1588-1595): a null or undefined
value gives the no-data color; otherwise normalized = log(val) / log(max),
idx = min(floor(normalized * 5), 4), and the palette is indexed directly —
there is no clamp of normalized into the unit interval and no guard for
nonpositive values. Math.log is passed in as the parameter jlog, an abstract
model of its special-value structure (its transcendental values are not
exactly representable; the theorems below hold for every function with the
hypothesized special values, which real Math.log satisfies). -/
def colorScale (jlog : JNum → JNum) (noData : String) (mx : JNum)
    (val : Option JNum) : Option String :=
  match val with
  | none => some noData
  | some v =>
    let normalized := jdiv (jlog v) (jlog mx)
    let idx := jminFin (jfloor (jmulFin normalized 5)) 4
    jsArrayGet seqPalette idx

/-- Concrete stand-in for Math.log used only in the corner evaluations at
the inputs 0 and 10000: log 0 = -Infinity, log of a negative is NaN,
log 1 = 0, and the finite positive value 4 stands in for any positive
logarithm (the general theorems show the results do not depend on it). -/
def logModel : JNum → JNum
  | JNum.fin q =>
    if q = 0 then JNum.ninf
    else if q < 0 then JNum.nan
    else if q = 1 then JNum.fin 0
    else JNum.fin 4
  | JNum.pinf => JNum.pinf
  | _ => JNum.nan

/-- C3: the color scale has no clamp and no nonpositive-value guard. For
every model of Math.log sending 0 to -Infinity and the positive maximum
10000 to a positive finite value, the scale at the defined value 0 divides
-Infinity by that value, floors and mins to -Infinity, and indexes the
palette at -Infinity: the result is undefined (none) — not the designated
no-data color and not any palette entry, contradicting the claimed
clamped treat-as-no-data behavior. -/
theorem colorScale_zero_unguarded (jlog : JNum → JNum) (noData : String) (m : ℚ)
    (h0 : jlog (JNum.fin 0) = JNum.ninf)
    (hmax : jlog (JNum.fin 10000) = JNum.fin m) (hm : 0 < m) :
    colorScale jlog noData (JNum.fin 10000) (some (JNum.fin 0)) = none ∧
    (∀ c ∈ seqPalette,
      colorScale jlog noData (JNum.fin 10000) (some (JNum.fin 0)) ≠ some c) := by
  have hdiv : jdiv (jlog (JNum.fin 0)) (jlog (JNum.fin 10000)) = JNum.ninf := by
    rw [h0, hmax]
    simp [jdiv, le_of_lt hm]
  have hres : colorScale jlog noData (JNum.fin 10000) (some (JNum.fin 0)) = none := by
    simp only [colorScale, hdiv]
    norm_num [jmulFin, jfloor, jminFin, jsArrayGet]
  exact ⟨hres, fun c _ => by rw [hres]; exact fun hc => Option.noConfusion hc⟩

/-- Witness for C3 at the concrete log stand-in. -/
theorem colorScale_zero_unguarded_witness :
    colorScale logModel "#f3f4f6" (JNum.fin 10000) (some (JNum.fin 0)) = none :=
  (colorScale_zero_unguarded logModel "#f3f4f6" 4 (by norm_num [logModel])
    (by norm_num [logModel]) (by norm_num)).1

/-- C4 counterexample: in the degenerate range where the single defined
value 10000 equals the maximum, the computed color is the LAST (darkest)
palette entry, not the first (lightest) one the claim names. -/
theorem colorScale_degenerate_not_first :
    colorScale logModel "#f3f4f6" (JNum.fin 10000) (some (JNum.fin 10000)) =
      some "#1e3a8a" ∧
    ("#1e3a8a" : String) ≠ "#dbeafe" := by
  constructor
  · have hlog : logModel (JNum.fin 10000) = JNum.fin 4 := by norm_num [logModel]
    have hdiv : jdiv (JNum.fin 4) (JNum.fin 4) = JNum.fin 1 := by norm_num [jdiv]
    simp only [colorScale, hlog, hdiv]
    norm_num [jmulFin, jfloor, jminFin, jsArrayGet, seqPalette]
    rfl
  · decide

/-- C4 (amended): when every defined value equals 10000 (so min = max),
every region with a defined value receives the same color and no division by
zero or NaN occurs, but that color is the last (darkest) palette bucket
#1e3a8a, not the first: normalized = log(10000)/log(10000) = 1 exactly, so
idx = min(floor(5), 4) = 4. This holds for every model of Math.log that is
finite and nonzero at 10000. -/
theorem colorScale_degenerate (jlog : JNum → JNum) (noData : String) (m : ℚ)
    (hmax : jlog (JNum.fin 10000) = JNum.fin m) (hm : m ≠ 0) :
    colorScale jlog noData (JNum.fin 10000) (some (JNum.fin 10000)) =
      some "#1e3a8a" := by
  have hdiv : jdiv (jlog (JNum.fin 10000)) (jlog (JNum.fin 10000)) = JNum.fin 1 := by
    rw [hmax]
    simp [jdiv, hm, div_self hm]
  simp only [colorScale, hdiv]
  norm_num [jmulFin, jfloor, jminFin, jsArrayGet, seqPalette]
  rfl

/-- Witness for C4 at the concrete log stand-in. -/
theorem colorScale_degenerate_witness :
    colorScale logModel "#f3f4f6" (JNum.fin 10000) (some (JNum.fin 10000)) =
      some "#1e3a8a" :=
  colorScale_degenerate logModel "#f3f4f6" 4 (by norm_num [logModel]) (by norm_num)

/-- Latitude clamp of generatePathData (app.js line 1718). -/
def clampLat (lat : ℚ) : ℚ := max (-85) (min 85 lat)

/-- project of generatePathData (app.js lines 1716-1730): x maps longitude
linearly from -180..180 to 0..width; y rescales the Mercator ordinate of the
clamped latitude against its precomputed value at the 85 degree bound and
flips vertically. The transcendental composite log(tan(pi/4 + lat*pi/360))
is abstracted as the parameter merc taking the latitude in degrees: x does
not use it, and the clamp claim needs only that equal clamped latitudes give
equal ordinates, so every statement below holds for the real composite. -/
def projectPt (merc : ℚ → ℚ) (width height lon lat : ℚ) : ℚ × ℚ :=
  let latC := clampLat lat
  ((lon + 180) * (width / 360),
    height / 2 - (merc latC / merc 85) * (height / 2))

/-- C7: projection boundary behavior for every canvas size: longitude -180
at latitude 0 projects to x = 0; longitude 180 projects to x = width at any
latitude; and every vertex with latitude at or beyond the 85 degree clamp
bound (such as 89) projects to exactly the same point as the same longitude
at latitude 85. -/
theorem projectPt_boundary (merc : ℚ → ℚ) (width height : ℚ) :
    (projectPt merc width height (-180) 0).1 = 0 ∧
    (∀ lat : ℚ, (projectPt merc width height 180 lat).1 = width) ∧
    (∀ lon lat : ℚ, 85 ≤ lat →
      projectPt merc width height lon lat = projectPt merc width height lon 85) := by
  refine ⟨?_, ?_, ?_⟩
  · show (-180 + 180) * (width / 360) = 0
    ring
  · intro lat
    show (180 + 180) * (width / 360) = width
    field_simp
    ring
  · intro lon lat h
    have hc : clampLat lat = 85 := by
      unfold clampLat
      rw [min_eq_left h, max_eq_right (by norm_num : (-85 : ℚ) ≤ 85)]
    have hc85 : clampLat 85 = 85 := by
      unfold clampLat
      rw [min_eq_left le_rfl, max_eq_right (by norm_num : (-85 : ℚ) ≤ 85)]
    unfold projectPt
    rw [hc, hc85]

/-- Witness for C7 at canvas 1000 by 600, longitude 10 and latitude 89,
with the identity as the Mercator-ordinate stand-in. -/
theorem projectPt_boundary_witness :
    (projectPt (fun t => t) 1000 600 (-180) 0).1 = 0 ∧
    (projectPt (fun t => t) 1000 600 180 0).1 = 1000 ∧
    projectPt (fun t => t) 1000 600 10 89 = projectPt (fun t => t) 1000 600 10 85 :=
  ⟨(projectPt_boundary (fun t => t) 1000 600).1,
    (projectPt_boundary (fun t => t) 1000 600).2.1 0,
    (projectPt_boundary (fun t => t) 1000 600).2.2 10 89 (by norm_num)⟩

/-- One row of the countryStats snapshot built in renderMap (app.js lines
1550-1572): code, display name, the defined primary metric (GDP) value, and
the optional secondary metrics. -/
structure RankEntry where
  code : String
  name : String
  gdp : ℚ
  ppp : Option ℚ
  growth : Option ℚ
deriving DecidableEq

/-- The primary-metric comparison of app.js line 1575: descending by gdp. -/
def gdpGe (a b : RankEntry) : Prop := b.gdp ≤ a.gdp

instance : DecidableRel gdpGe := fun a b => inferInstanceAs (Decidable (b.gdp ≤ a.gdp))

instance : IsTotal RankEntry gdpGe := ⟨fun a b => le_total b.gdp a.gdp⟩

instance : IsTrans RankEntry gdpGe := ⟨fun _ _ _ h1 h2 => le_trans h2 h1⟩

/-- JS Array.prototype.indexOf over the snapshot (app.js lines 2051 and
2078): the index of the first occurrence, or -1 when absent. -/
def jsIndexOf (l : List RankEntry) (a : RankEntry) : ℤ :=
  match l.findIdx? (fun b => b == a) with
  | some i => (i : ℤ)
  | none => -1

/-- The sortable columns of the global rankings table. -/
inductive RankField
  | byRank
  | byName
  | byGdp
  | byPpp
  | byGrowth
deriving DecidableEq

/-- Lexicographic character-list comparison (model of the string ordering
behind localeCompare for the name column). -/
def listLe : List Char → List Char → Bool
  | [], _ => true
  | _ :: _, [] => false
  | a :: as, b :: bs => if a = b then listLe as bs else decide (a < b)

/-- Boolean comparison key of the rankings comparator (app.js lines
2047-2075) for one column: rank compares positions in the unfiltered
snapshot, name compares lexicographically, gdp and ppp treat missing as 0,
and growth treats missing as -Infinity (missing sinks when descending). -/
def fieldLe (data : List RankEntry) : RankField → RankEntry → RankEntry → Bool
  | RankField.byRank => fun a b => decide (jsIndexOf data a ≤ jsIndexOf data b)
  | RankField.byName => fun a b => listLe a.name.data b.name.data
  | RankField.byGdp => fun a b => decide (a.gdp ≤ b.gdp)
  | RankField.byPpp => fun a b => decide (a.ppp.getD 0 ≤ b.ppp.getD 0)
  | RankField.byGrowth => fun a b =>
    match a.growth, b.growth with
    | none, _ => true
    | some _, none => false
    | some x, some y => decide (x ≤ y)

/-- Ascending toggle of the comparator: descending swaps the arguments. -/
def displayLe (data : List RankEntry) (f : RankField) (asc : Bool)
    (a b : RankEntry) : Bool :=
  if asc then fieldLe data f a b else fieldLe data f b a

/-- Sorted insertion, modelling the comparison sort behind
Array.prototype.sort on the displayed copy. -/
def insertByB (le : RankEntry → RankEntry → Bool) (a : RankEntry) :
    List RankEntry → List RankEntry
  | [] => [a]
  | b :: l => if le a b then a :: b :: l else b :: insertByB le a l

/-- Comparison sort of the displayed rows. -/
def sortByB (le : RankEntry → RankEntry → Bool) : List RankEntry → List RankEntry
  | [] => []
  | a :: l => insertByB le a (sortByB le l)

/-- Membership is preserved by sorted insertion. -/
theorem mem_insertByB (le : RankEntry → RankEntry → Bool) (a x : RankEntry) :
    ∀ l : List RankEntry, x ∈ insertByB le a l ↔ x = a ∨ x ∈ l := by
  intro l
  induction l with
  | nil => simp [insertByB]
  | cons b l ih =>
    by_cases h : le a b = true
    · simp [insertByB, h]
    · simp only [insertByB, if_neg h, List.mem_cons, ih]
      tauto

/-- Membership is preserved by the display sort. -/
theorem mem_sortByB (le : RankEntry → RankEntry → Bool) (x : RankEntry) :
    ∀ l : List RankEntry, x ∈ sortByB le l ↔ x ∈ l := by
  intro l
  induction l with
  | nil => simp [sortByB]
  | cons a l ih => simp [sortByB, mem_insertByB, ih]

/-- Needle appears at the head of the haystack. -/
def listBeginsWith : List Char → List Char → Bool
  | [], _ => true
  | _ :: _, [] => false
  | a :: as, b :: bs => a = b && listBeginsWith as bs

/-- Needle appears somewhere in the haystack (model of JS includes). -/
def listHasSub : List Char → List Char → Bool
  | needle, [] => needle.isEmpty
  | needle, h :: t => listBeginsWith needle (h :: t) || listHasSub needle t

/-- Case-insensitive substring filter of renderGlobalRankings (app.js lines
2037-2044): an empty query is falsy and disables filtering; otherwise rows
whose lowercased name or code contains the lowercased query are kept. -/
def rankFilter (data : List RankEntry) (query : String) : List RankEntry :=
  if query = "" then data
  else data.filter (fun c =>
    listHasSub (jsToLower query).data (jsToLower c.name).data ||
    listHasSub (jsToLower query).data (jsToLower c.code).data)

/-- renderGlobalRankings (app.js lines 2032-2098): filter the snapshot by
the query, sort a copy by the selected column and direction, and display
each row with rank = 1 + its position in the unfiltered snapshot
(originalRank, line 2078). -/
def renderRankings (data : List RankEntry) (query : String) (f : RankField)
    (asc : Bool) : List (ℤ × RankEntry) :=
  (sortByB (displayLe data f asc) (rankFilter data query)).map
    (fun c => (jsIndexOf data c + 1, c))

/-- Every displayed row carries rank = 1 + its position in the unfiltered
snapshot, whatever the query, sort column and direction. -/
theorem renderRankings_rank (data : List RankEntry) (query : String)
    (f : RankField) (asc : Bool) (r : ℤ) (c : RankEntry)
    (h : (r, c) ∈ renderRankings data query f asc) :
    r = jsIndexOf data c + 1 := by
  unfold renderRankings at h
  rw [List.mem_map] at h
  obtain ⟨c2, _, heq⟩ := h
  have h1 : jsIndexOf data c2 + 1 = r := congrArg Prod.fst heq
  have h2 : c2 = c := congrArg Prod.snd heq
  rw [← h1, h2]

/-- C8: rank numbers in the rankings table are computed once from the
unfiltered snapshot sorted descending by the primary metric (GDP): the
snapshot order is gdp-descending, every displayed row shows rank = 1 + its
position in that snapshot, and a row present under two different
query/sort-column/direction configurations shows the same rank in both. -/
theorem rankings_rank_stable :
    (∀ stats : List RankEntry,
      List.Sorted gdpGe (List.insertionSort gdpGe stats)) ∧
    (∀ (stats : List RankEntry) (query : String) (f : RankField) (asc : Bool)
      (r : ℤ) (c : RankEntry),
      (r, c) ∈ renderRankings (List.insertionSort gdpGe stats) query f asc →
      r = jsIndexOf (List.insertionSort gdpGe stats) c + 1) ∧
    (∀ (stats : List RankEntry) (q1 q2 : String) (f1 f2 : RankField)
      (a1 a2 : Bool) (r1 r2 : ℤ) (c : RankEntry),
      (r1, c) ∈ renderRankings (List.insertionSort gdpGe stats) q1 f1 a1 →
      (r2, c) ∈ renderRankings (List.insertionSort gdpGe stats) q2 f2 a2 →
      r1 = r2) := by
  refine ⟨?_, ?_, ?_⟩
  · intro stats
    exact List.sorted_insertionSort gdpGe stats
  · intro stats query f asc r c h
    exact renderRankings_rank _ query f asc r c h
  · intro stats q1 q2 f1 f2 a1 a2 r1 r2 c h1 h2
    rw [renderRankings_rank _ q1 f1 a1 r1 c h1, renderRankings_rank _ q2 f2 a2 r2 c h2]

/-- Witness for C8: in a two-country snapshot the lower-GDP country is
displayed with rank 2 under a name-ascending sort with no filter, and that
rank equals 1 + its position in the gdp-descending snapshot. -/
theorem rankings_rank_stable_witness :
    (2 : ℤ) =
      jsIndexOf
        (List.insertionSort gdpGe
          [⟨"USA", "United States", 50, none, none⟩,
            ⟨"CHN", "China", 80, none, none⟩])
        ⟨"USA", "United States", 50, none, none⟩ + 1 :=
  rankings_rank_stable.2.1
    [⟨"USA", "United States", 50, none, none⟩, ⟨"CHN", "China", 80, none, none⟩]
    "" RankField.byName true 2 ⟨"USA", "United States", 50, none, none⟩
    (by decide)
